import Mathlib

/-!
Verification of the streaming delta engine and cancellation bridge of the
`deepseek-ocr.rs` Android crate.

Shallow embedding conventions:
* Rust `String` / `&str` values are modelled as `List Char` (`Str`).
* Rust `i64` token ids are modelled as `Int`; `u32` values as `Nat` with the
  bound `2^32` made explicit where conversions occur.
* The external tokenizer (`tokenizers::Tokenizer::decode`) is an opaque
  collaborator; it is abstracted as a parameter `tok : List Nat → Option Str`
  (`Option` models the fallible Rust call).
* The external decode backend is abstracted by the trace of callback
  invocations it performs plus its returned result.
* Fallible Rust functions returning `anyhow::Result` are modelled with
  `Except`, with error payloads as tagged variants.
-/

namespace DeepseekOcr

/-- Rust strings, modelled as lists of characters. -/
abbrev Str := List Char

/-- Longest common prefix of two character lists (used by the Delta
Tracker's re-sync policy). -/
def lcp : Str → Str → Str
  | [], _ => []
  | _, [] => []
  | a :: as, b :: bs => if a = b then a :: lcp as bs else []

/-- Modelled from the spec: the `DeltaTracker` of
`deepseek_ocr_core::streaming` is not among the provided sources; its state is
"the last text snapshot that has been fully emitted to the host (a string)"
(spec §3). -/
structure DeltaTracker where
  emitted : Str
deriving Repr, DecidableEq

/-- Modelled from the spec: `DeltaTracker::default()` starts with no
remembered text. -/
def DeltaTracker.default : DeltaTracker := ⟨[]⟩

/-- Modelled from the spec: `DeltaTracker::advance(full_text, is_final)`
(spec §4.2). If `full_text` starts with the remembered text the delta is
the remaining suffix; otherwise the tracker emits only the portion beyond
the longest common prefix. In both cases the remembered text becomes
`full_text`. `is_final` does not alter the logic. -/
def DeltaTracker.advance (t : DeltaTracker) (full_text : Str) (_is_final : Bool) :
    Str × DeltaTracker :=
  if t.emitted.isPrefixOf full_text then
    (full_text.drop t.emitted.length, ⟨full_text⟩)
  else
    (full_text.drop (lcp t.emitted full_text).length, ⟨full_text⟩)

/-- Run the tracker over a list of snapshots (all non-final), collecting the
deltas in order. -/
def runDeltas (t : DeltaTracker) : List Str → List Str
  | [] => []
  | s :: rest =>
    let (d, t') := t.advance s false
    d :: runDeltas t' rest

/-- One snapshot extends another by appending: `b = a ++ t` for some tail. -/
def ExtendsByAppend (a b : Str) : Prop := a <+: b

instance (a b : Str) : Decidable (ExtendsByAppend a b) :=
  inferInstanceAs (Decidable (a <+: b))

lemma isPrefixOf_iff (a b : Str) : a.isPrefixOf b ↔ a <+: b :=
  List.isPrefixOf_iff_prefix

lemma advance_of_prefix (t : DeltaTracker) (s : Str) (f : Bool)
    (h : t.emitted <+: s) :
    t.advance s f = (s.drop t.emitted.length, ⟨s⟩) := by
  unfold DeltaTracker.advance
  rw [if_pos ((isPrefixOf_iff _ _).mpr h)]

lemma runDeltas_cons (t : DeltaTracker) (s : Str) (rest : List Str) :
    runDeltas t (s :: rest) =
      (t.advance s false).1 :: runDeltas (t.advance s false).2 rest := by
  cases hadv : t.advance s false with
  | mk d t' => simp only [runDeltas, hadv]

lemma prefix_append_drop (a b : Str) (h : a <+: b) :
    a ++ b.drop a.length = b := by
  obtain ⟨t, rfl⟩ := h
  simp

lemma runDeltas_join (emitted : Str) (l : List Str)
    (hne : l ≠ [])
    (hfirst : emitted <+: l.head hne)
    (hchain : List.Chain' ExtendsByAppend l) :
    emitted ++ (runDeltas ⟨emitted⟩ l).flatten = l.getLast hne := by
  induction l generalizing emitted with
  | nil => exact absurd rfl hne
  | cons s rest ih =>
    have hfirst' : emitted <+: s := hfirst
    have hadv := advance_of_prefix ⟨emitted⟩ s false hfirst'
    cases rest with
    | nil =>
      rw [runDeltas_cons, hadv]
      simp only [runDeltas, List.flatten_cons, List.flatten_nil, List.append_nil,
        List.getLast_singleton]
      exact prefix_append_drop _ _ hfirst'
    | cons b rest' =>
      have hchain' : List.Chain' ExtendsByAppend (b :: rest') :=
        (List.chain'_cons.mp hchain).2
      have hsb : s <+: b := (List.chain'_cons.mp hchain).1
      have ihres := ih s (List.cons_ne_nil _ _) hsb hchain'
      rw [runDeltas_cons, hadv]
      simp only [List.flatten_cons]
      rw [← List.append_assoc, prefix_append_drop _ _ hfirst',
        List.getLast_cons (List.cons_ne_nil _ _)]
      exact ihres

/-- C2 main statement: over an append-chain of snapshots, the concatenated
deltas from a fresh tracker reconstruct the final snapshot. -/
theorem deltaTracker_concat (l : List Str) (hne : l ≠ [])
    (hchain : List.Chain' ExtendsByAppend l) :
    (runDeltas DeltaTracker.default l).flatten = l.getLast hne := by
  have := runDeltas_join [] l hne ( List.nil_prefix) hchain
  simpa [DeltaTracker.default] using this

theorem deltaTracker_concat_witness :
    (runDeltas DeltaTracker.default
      [['h'], ['h', 'e'], ['h', 'e', 'y']]).flatten = ['h', 'e', 'y'] :=
  deltaTracker_concat [['h'], ['h', 'e'], ['h', 'e', 'y']] (by decide)
    (List.chain'_cons.mpr ⟨⟨['e'], rfl⟩,
      List.chain'_cons.mpr ⟨⟨['y'], rfl⟩, List.chain'_singleton _⟩⟩)

/-! Progress dispatcher (src/crates/android/src/engine.rs). -/

/-- Event record `AndroidProgressEvent` (src/crates/android/src/lib.rs:132-137).
`token_count` is a `u32` obtained from `count.min(u32::MAX as usize) as u32`,
so it is modelled as a `Nat` already clamped below `2^32`. -/
structure AndroidProgressEvent where
  token_count : Nat
  delta_text : Str
  is_final : Bool
deriving Repr, DecidableEq

/-- State of `ProgressDispatcher` (engine.rs:219-224). The tokenizer and host
callback are externals: the tokenizer is passed to `handle` as a function
parameter, and events are returned instead of being pushed to a callback. -/
structure ProgressDispatcher where
  tracker : DeltaTracker
  last_count : Nat
deriving Repr, DecidableEq

/-- Constructor `ProgressDispatcher::new` (engine.rs:227-234). -/
def ProgressDispatcher.new : ProgressDispatcher :=
  { tracker := DeltaTracker.default, last_count := 0 }

/-- Conversion `u32::try_from(id).ok()` on an `i64` (engine.rs:252): succeeds exactly
when `0 ≤ id < 2^32`, yielding the corresponding `Nat`. -/
def u32OfInt (id : Int) : Option Nat :=
  if 0 ≤ id ∧ id < 4294967296 then some id.toNat else none

/-- The token slice the dispatcher detokenizes (engine.rs:244, 250-253):
the prefix `ids[..min(count, ids.len())]` with ids that are not valid `u32`
values dropped. -/
def tokenSlice (count : Nat) (ids : List Int) : List Nat :=
  (ids.take (min count ids.length)).filterMap u32OfInt

/-- Model of `ProgressDispatcher::handle(count, ids, is_final)` (engine.rs:236-271).
`tok` abstracts `self.tokenizer.decode(&token_slice, true)`; the returned
`Option AndroidProgressEvent` is the event pushed to the host callback this
call, if any. -/
def ProgressDispatcher.handle (tok : List Nat → Option Str)
    (d : ProgressDispatcher) (count : Nat) (ids : List Int) (is_final : Bool) :
    ProgressDispatcher × Option AndroidProgressEvent :=
  if (!is_final && count ≤ d.last_count) || count = 0 then
    (if count = 0 then { d with last_count := 0 } else d, none)
  else
    let upto := min count ids.length
    if upto = 0 then
      ({ d with last_count := count }, none)
    else
      let token_slice := (ids.take upto).filterMap u32OfInt
      if token_slice.isEmpty then
        ({ d with last_count := count }, none)
      else
        match tok token_slice with
        | some full_text =>
          let (delta, tracker') := d.tracker.advance full_text is_final
          let ev :=
            if delta.isEmpty then none
            else some ⟨min count 4294967295, delta, is_final⟩
          ({ tracker := tracker', last_count := count }, ev)
        | none => ({ d with last_count := count }, none)

/-- Model of `ProgressDispatcher::finalize(tokens)` (engine.rs:273-275). -/
def ProgressDispatcher.finalize (tok : List Nat → Option Str)
    (d : ProgressDispatcher) (tokens : List Int) :
    ProgressDispatcher × Option AndroidProgressEvent :=
  d.handle tok tokens.length tokens true

/-- Run `handle` over a list of `(count, ids)` notifications, all non-final
(this is how the backend's mid-decode callback drives the dispatcher,
engine.rs:162-164), collecting the events that were emitted. -/
def runHandles (tok : List Nat → Option Str) (d : ProgressDispatcher) :
    List (Nat × List Int) → ProgressDispatcher × List AndroidProgressEvent
  | [] => (d, [])
  | (count, ids) :: rest =>
    let (d', ev) := d.handle tok count ids false
    let (d'', evs) := runHandles tok d' rest
    (d'', ev.toList ++ evs)

/-- A notification is accepted when it passes the staleness filter at
engine.rs:237: `count ≠ 0` and (final or `count > last_count`). -/
def Accepted (d : ProgressDispatcher) (count : Nat) (is_final : Bool) : Prop :=
  count ≠ 0 ∧ (is_final = true ∨ d.last_count < count)

lemma handle_count_zero (tok : List Nat → Option Str) (d : ProgressDispatcher)
    (ids : List Int) (f : Bool) :
    d.handle tok 0 ids f = ({ d with last_count := 0 }, none) := by
  unfold ProgressDispatcher.handle
  simp

lemma handle_stale (tok : List Nat → Option Str) (d : ProgressDispatcher)
    (count : Nat) (ids : List Int) (h0 : count ≠ 0) (hle : count ≤ d.last_count) :
    d.handle tok count ids false = (d, none) := by
  unfold ProgressDispatcher.handle
  simp [h0, hle]

lemma handle_final_ignores_last_count (tok : List Nat → Option Str)
    (tr : DeltaTracker) (lc lc' : Nat) (count : Nat) (ids : List Int)
    (h0 : count ≠ 0) :
    ProgressDispatcher.handle tok ⟨tr, lc⟩ count ids true =
      ProgressDispatcher.handle tok ⟨tr, lc'⟩ count ids true := by
  unfold ProgressDispatcher.handle
  simp [h0]

lemma handle_accepted_last_count (tok : List Nat → Option Str)
    (d : ProgressDispatcher) (count : Nat) (ids : List Int) (f : Bool)
    (h : Accepted d count f) :
    ((d.handle tok count ids f).1).last_count = count := by
  obtain ⟨h0, hor⟩ := h
  have hguard : ((!f && decide (count ≤ d.last_count)) || decide (count = 0)) = false := by
    rcases hor with hf | hlt
    · simp [hf, h0]
    · simp [h0, Nat.not_le.mpr hlt]
  unfold ProgressDispatcher.handle
  simp only [hguard, Bool.false_eq_true, if_false]
  split
  · rfl
  · split
    · rfl
    · split
      · rfl
      · rfl

/-- A concrete detokenizer used to exhibit emissions: each id renders as one
character `a`, so longer slices detokenize to strictly longer text. -/
def tokLen : List Nat → Option Str := fun l => some (List.replicate l.length 'a')

/-- C3: `handle(count, token_ids, is_final)` is a no-op that additionally
resets `last_count` to 0 when `count = 0`; it is a no-op for every non-final
notification with `count ≤ last_count`; final notifications pass the
staleness filter unconditionally (the result is independent of `last_count`);
and on non-final counts `[5, 3, 7, 7, 10]` only the notifications with counts
5, 7, 10 can emit events — the 3 and the duplicate 7 are suppressed for every
tokenizer, while a concrete tokenizer realises emissions at 5, 7, 10. -/
theorem dispatcher_notification_filtering :
    (∀ (tok : List Nat → Option Str) (d : ProgressDispatcher) (ids : List Int) (f : Bool),
      d.handle tok 0 ids f = ({ d with last_count := 0 }, none))
    ∧ (∀ (tok : List Nat → Option Str) (d : ProgressDispatcher) (count : Nat) (ids : List Int),
      count ≠ 0 → count ≤ d.last_count → d.handle tok count ids false = (d, none))
    ∧ (∀ (tok : List Nat → Option Str) (tr : DeltaTracker) (lc lc' count : Nat) (ids : List Int),
      count ≠ 0 →
      ProgressDispatcher.handle tok ⟨tr, lc⟩ count ids true =
        ProgressDispatcher.handle tok ⟨tr, lc'⟩ count ids true)
    ∧ (∀ (tok : List Nat → Option Str) (a b c c' : List Int),
      ((ProgressDispatcher.new.handle tok 5 a false).1.handle tok 3 b false).2 = none
      ∧ (((ProgressDispatcher.new.handle tok 5 a false).1.handle tok 7 c
            false).1.handle tok 7 c' false).2 = none)
    ∧ (runHandles tokLen ProgressDispatcher.new
        [(5, [1]), (3, [1]), (7, [1, 2]), (7, [1, 2]), (10, [1, 2, 3])]
        ).2.map AndroidProgressEvent.token_count = [5, 7, 10] := by
  refine ⟨handle_count_zero, handle_stale, handle_final_ignores_last_count, ?_, ?_⟩
  · intro tok a b c c'
    have h5 : ((ProgressDispatcher.new.handle tok 5 a false).1).last_count = 5 :=
      handle_accepted_last_count tok _ 5 a false ⟨by decide, Or.inr (by decide)⟩
    constructor
    · rw [handle_stale tok _ 3 b (by decide) (by omega)]
    · have h7 : (((ProgressDispatcher.new.handle tok 5 a false).1.handle tok 7 c
          false).1).last_count = 7 :=
        handle_accepted_last_count tok _ 7 c false ⟨by decide, Or.inr (by omega)⟩
      rw [handle_stale tok _ 7 c' (by decide) (by omega)]
  · decide

theorem dispatcher_notification_filtering_witness :
    ProgressDispatcher.handle tokLen ⟨DeltaTracker.default, 5⟩ 3 [1] false =
      (⟨DeltaTracker.default, 5⟩, none) :=
  dispatcher_notification_filtering.2.1 tokLen ⟨DeltaTracker.default, 5⟩ 3 [1]
    (by decide) (by decide)

lemma advance_sets_emitted (t : DeltaTracker) (s : Str) (f : Bool) :
    (t.advance s f).2 = ⟨s⟩ := by
  unfold DeltaTracker.advance
  split <;> rfl

lemma advance_self (s : Str) (f : Bool) :
    (DeltaTracker.mk s).advance s f = ([], ⟨s⟩) := by
  unfold DeltaTracker.advance
  rw [if_pos ((isPrefixOf_iff s s).mpr (List.prefix_refl s))]
  simp

lemma accepted_guard (d : ProgressDispatcher) (count : Nat) (f : Bool)
    (h : Accepted d count f) :
    ((!f && decide (count ≤ d.last_count)) || decide (count = 0)) = false := by
  obtain ⟨h0, hor⟩ := h
  rcases hor with hf | hlt
  · simp [hf, h0]
  · simp [h0, Nat.not_le.mpr hlt]

lemma tokenSlice_ne_nil_upto (count : Nat) (ids : List Int)
    (hs : tokenSlice count ids ≠ []) : min count ids.length ≠ 0 := by
  intro hzero
  apply hs
  unfold tokenSlice
  rw [hzero]
  simp

lemma handle_accepted_decode (tok : List Nat → Option Str)
    (d : ProgressDispatcher) (count : Nat) (ids : List Int) (f : Bool) (s : Str)
    (h : Accepted d count f) (hs : tokenSlice count ids ≠ [])
    (htok : tok (tokenSlice count ids) = some s) :
    d.handle tok count ids f =
      ({ tracker := ⟨s⟩, last_count := count },
        if ((d.tracker.advance s f).1).isEmpty then none
        else some ⟨min count 4294967295, (d.tracker.advance s f).1, f⟩) := by
  unfold ProgressDispatcher.handle
  simp only [accepted_guard d count f h, Bool.false_eq_true, if_false]
  rw [if_neg (tokenSlice_ne_nil_upto count ids hs)]
  have hslice : (ids.take (min count ids.length)).filterMap u32OfInt =
      tokenSlice count ids := rfl
  rw [hslice, if_neg (by simpa [List.isEmpty_iff] using hs), htok]
  rw [← advance_sets_emitted d.tracker s f]

lemma handle_accepted_decode_fail (tok : List Nat → Option Str)
    (d : ProgressDispatcher) (count : Nat) (ids : List Int) (f : Bool)
    (h : Accepted d count f) (hs : tokenSlice count ids ≠ [])
    (htok : tok (tokenSlice count ids) = none) :
    d.handle tok count ids f = ({ d with last_count := count }, none) := by
  unfold ProgressDispatcher.handle
  simp only [accepted_guard d count f h, Bool.false_eq_true, if_false]
  rw [if_neg (tokenSlice_ne_nil_upto count ids hs)]
  have hslice : (ids.take (min count ids.length)).filterMap u32OfInt =
      tokenSlice count ids := rfl
  rw [hslice, if_neg (by simpa [List.isEmpty_iff] using hs), htok]

lemma handle_accepted_empty_slice (tok : List Nat → Option Str)
    (d : ProgressDispatcher) (count : Nat) (ids : List Int) (f : Bool)
    (h : Accepted d count f) (hs : tokenSlice count ids = []) :
    d.handle tok count ids f = ({ d with last_count := count }, none) := by
  unfold ProgressDispatcher.handle
  simp only [accepted_guard d count f h, Bool.false_eq_true, if_false]
  split
  · rfl
  · have hslice : (ids.take (min count ids.length)).filterMap u32OfInt =
        tokenSlice count ids := rfl
    rw [hslice, if_pos (by simpa [List.isEmpty_iff] using hs)]

lemma handle_event_nonempty (tok : List Nat → Option Str)
    (d : ProgressDispatcher) (count : Nat) (ids : List Int) (f : Bool)
    (ev : AndroidProgressEvent)
    (h : (d.handle tok count ids f).2 = some ev) : ev.delta_text ≠ [] := by
  unfold ProgressDispatcher.handle at h
  split at h
  · simp at h
  · dsimp only at h
    split at h
    · simp at h
    · split at h
      · simp at h
      · split at h
        · rename_i full_text heq
          split at h
          · simp at h
          · rename_i hne
            obtain rfl := Option.some.inj h
            simpa [List.isEmpty_iff] using hne
        · simp at h

lemma handle_after_same_text (tok : List Nat → Option Str)
    (d : ProgressDispatcher) (c1 : Nat) (ids1 : List Int) (c2 : Nat)
    (ids2 : List Int) (s : Str)
    (h1 : Accepted d c1 false) (hs1 : tokenSlice c1 ids1 ≠ [])
    (ht1 : tok (tokenSlice c1 ids1) = some s)
    (ht2 : tok (tokenSlice c2 ids2) = some s) :
    ((d.handle tok c1 ids1 false).1.handle tok c2 ids2 false).2 = none := by
  rw [handle_accepted_decode tok d c1 ids1 false s h1 hs1 ht1]
  show ((ProgressDispatcher.mk ⟨s⟩ c1).handle tok c2 ids2 false).2 = none
  by_cases h0 : c2 = 0
  · subst h0
    rw [handle_count_zero]
  · by_cases hle : c2 ≤ c1
    · rw [handle_stale tok _ c2 ids2 h0 hle]
    · have hacc : Accepted ⟨⟨s⟩, c1⟩ c2 false :=
        ⟨h0, Or.inr (Nat.lt_of_not_le hle)⟩
      by_cases hs2 : tokenSlice c2 ids2 = []
      · rw [handle_accepted_empty_slice tok _ c2 ids2 false hacc hs2]
      · rw [handle_accepted_decode tok _ c2 ids2 false s hacc hs2 ht2]
        simp [advance_self]

/-- A constant detokenizer: every slice renders as the same text `x`. -/
def tokConst : List Nat → Option Str := fun _ => some ['x']

/-- C5: every event delivered to the host callback has a non-empty
`delta_text`, and two consecutive notifications whose slices detokenize to
identical text produce no second event. -/
theorem nonempty_delta_invariant :
    (∀ (tok : List Nat → Option Str) (d : ProgressDispatcher) (count : Nat)
        (ids : List Int) (f : Bool) (ev : AndroidProgressEvent),
      (d.handle tok count ids f).2 = some ev → ev.delta_text ≠ [])
    ∧ (∀ (tok : List Nat → Option Str) (d : ProgressDispatcher) (c1 : Nat)
        (ids1 : List Int) (c2 : Nat) (ids2 : List Int) (s : Str),
      Accepted d c1 false → tokenSlice c1 ids1 ≠ [] →
      tok (tokenSlice c1 ids1) = some s → tok (tokenSlice c2 ids2) = some s →
      ((d.handle tok c1 ids1 false).1.handle tok c2 ids2 false).2 = none) :=
  ⟨fun tok d count ids f ev h => handle_event_nonempty tok d count ids f ev h,
   fun tok d c1 ids1 c2 ids2 s h1 hs1 ht1 ht2 =>
     handle_after_same_text tok d c1 ids1 c2 ids2 s h1 hs1 ht1 ht2⟩

theorem nonempty_delta_invariant_witness :
    (AndroidProgressEvent.mk 1 ['a'] false).delta_text ≠ []
    ∧ ((ProgressDispatcher.new.handle tokConst 1 [1] false).1.handle tokConst
        2 [1, 1] false).2 = none :=
  ⟨nonempty_delta_invariant.1 tokLen ProgressDispatcher.new 1 [1] false _ (by decide),
   nonempty_delta_invariant.2 tokConst ProgressDispatcher.new 1 [1] 2 [1, 1] ['x']
     ⟨by decide, Or.inr (by decide)⟩ (by decide) (by decide) (by decide)⟩

/-- A detokenizer that rejects every slice. -/
def tokNone : List Nat → Option Str := fun _ => none

/-- C6: when an accepted notification's detokenizer call fails, `handle`
emits no event, leaves the tracker untouched and raises no error (it returns
normally), and for every accepted notification `last_count` is updated to
`count` whether or not a delta was emitted. -/
theorem recoverable_detok_failure :
    (∀ (tok : List Nat → Option Str) (d : ProgressDispatcher) (count : Nat)
        (ids : List Int) (f : Bool),
      Accepted d count f → tokenSlice count ids ≠ [] →
      tok (tokenSlice count ids) = none →
      d.handle tok count ids f = ({ d with last_count := count }, none))
    ∧ (∀ (tok : List Nat → Option Str) (d : ProgressDispatcher) (count : Nat)
        (ids : List Int) (f : Bool),
      Accepted d count f → ((d.handle tok count ids f).1).last_count = count) :=
  ⟨fun tok d count ids f h hs ht =>
      handle_accepted_decode_fail tok d count ids f h hs ht,
   fun tok d count ids f h => handle_accepted_last_count tok d count ids f h⟩

theorem recoverable_detok_failure_witness :
    ProgressDispatcher.handle tokNone ProgressDispatcher.new 1 [1] false =
      ({ ProgressDispatcher.new with last_count := 1 }, none)
    ∧ ((ProgressDispatcher.handle tokLen ProgressDispatcher.new 2 [1, 2]
        false).1).last_count = 2 :=
  ⟨recoverable_detok_failure.1 tokNone ProgressDispatcher.new 1 [1] false
      ⟨by decide, Or.inr (by decide)⟩ (by decide) (by decide),
   recoverable_detok_failure.2 tokLen ProgressDispatcher.new 2 [1, 2] false
      ⟨by decide, Or.inr (by decide)⟩⟩

lemma filterMap_u32 (l : List Int) :
    l.filterMap u32OfInt =
      (l.filter fun id => decide (0 ≤ id ∧ id < 4294967296)).map Int.toNat := by
  induction l with
  | nil => rfl
  | cons a t ih =>
    by_cases h : 0 ≤ a ∧ a < 4294967296
    · simp [u32OfInt, h, List.filterMap_cons, ih]
    · simp [u32OfInt, h, List.filterMap_cons, ih]

lemma handle_take (tok : List Nat → Option Str) (d : ProgressDispatcher)
    (count : Nat) (ids : List Int) (f : Bool) :
    d.handle tok count (ids.take count) f = d.handle tok count ids f := by
  have hupto : min count (ids.take count).length = min count ids.length := by
    rw [List.length_take]
    omega
  have hslice : (ids.take count).take (min count ids.length) =
      ids.take (min count ids.length) := by
    rw [List.take_take]
    congr 1
    omega
  unfold ProgressDispatcher.handle
  dsimp only
  rw [hupto, hslice]

/-- C7: the dispatcher's behaviour depends only on the prefix
`token_ids[0 .. min(count, len(token_ids))]` (dropping everything past
`count` changes nothing), and the detokenized slice is exactly that prefix
with every id not representable as a `u32` dropped (instead of failing). -/
theorem defensive_prefix_decoding :
    (∀ (tok : List Nat → Option Str) (d : ProgressDispatcher) (count : Nat)
        (ids : List Int) (f : Bool),
      d.handle tok count (ids.take count) f = d.handle tok count ids f)
    ∧ (∀ (count : Nat) (ids : List Int),
      tokenSlice count ids =
        ((ids.take (min count ids.length)).filter
          fun id => decide (0 ≤ id ∧ id < 4294967296)).map Int.toNat) :=
  ⟨handle_take, fun count ids => filterMap_u32 (ids.take (min count ids.length))⟩

/-! Decode orchestrator (`AndroidOcrEngine::infer`, engine.rs:101-187). -/

/-- The `<image>` placeholder marker. -/
def imageTag : Str := ['<', 'i', 'm', 'a', 'g', 'e', '>']

/-- Left-to-right non-overlapping scan counting `<image>` occurrences, with
explicit fuel so the scan is structurally recursive. On a match the scan
advances past the whole marker (`drop 6` on the tail, i.e. 7 characters in
total); otherwise it advances one character. Each step consumes at least one
character, so fuel equal to the string length never runs out. -/
def countImageTagsAux : Nat → Str → Nat
  | 0, _ => 0
  | _, [] => 0
  | fuel + 1, c :: rest =>
    if imageTag.isPrefixOf (c :: rest) then
      1 + countImageTagsAux fuel (rest.drop 6)
    else
      countImageTagsAux fuel rest

/-- Model of `prompt.matches("<image>").count` (engine.rs:111). -/
def countImageTags (s : Str) : Nat := countImageTagsAux s.length s

/-- Record `DecodeOutcome` as consumed by `infer` (fields read at
engine.rs:177-183 and lib.rs:179). -/
structure DecodeOutcome where
  text : Str
  prompt_tokens : Nat
  response_tokens : Nat
  generated_tokens : List Int
deriving Repr, DecidableEq

/-- Failure cases of `infer` (engine.rs:109-116 and the `?` on the backend
call at engine.rs:167-175); `anyhow` error strings are modelled as tagged
variants. -/
inductive InferError
  | renderFailed
  | slotMismatch (slots images : Nat)
  | backendFailed
deriving Repr, DecidableEq

/-- The opaque decode backend, abstracted by its observable behaviour: the
trace of `(count, ids)` invocations it makes on the mid-decode progress
callback (engine.rs:162-164), and its returned result (`none` models a
backend error propagated by `?`). -/
structure BackendBehavior where
  calls : List (Nat × List Int)
  result : Option DecodeOutcome

/-- Model of `AndroidOcrEngine::infer` (engine.rs:101-187). `render` abstracts
`render_prompt` (external collaborator; `none` models a render failure),
`tok` abstracts the tokenizer, `numImages` is `images.len()`, and
`hasProgress` tells whether a progress callback was supplied. Returns the
list of progress events delivered to the host alongside the result. The
cancellation token is merely forwarded to the opaque backend and so does not
appear. Logging only writes diagnostics and is omitted. -/
def infer (tok : List Nat → Option Str) (render : Option Str)
    (backend : BackendBehavior) (numImages : Nat) (hasProgress : Bool) :
    List AndroidProgressEvent × Except InferError DecodeOutcome :=
  match render with
  | none => ([], .error .renderFailed)
  | some prompt =>
    let slots := countImageTags prompt
    if slots = numImages then
      if hasProgress then
        let (d1, evs) := runHandles tok ProgressDispatcher.new backend.calls
        match backend.result with
        | none => (evs, .error .backendFailed)
        | some outcome =>
          let (_, evFinal) := d1.finalize tok outcome.generated_tokens
          (evs ++ evFinal.toList, .ok outcome)
      else
        match backend.result with
        | none => ([], .error .backendFailed)
        | some outcome => ([], .ok outcome)
    else
      ([], .error (.slotMismatch slots numImages))

/-- C8: when the number of `<image>` markers in the rendered prompt differs
from the number of supplied images, `infer` fails with the count-mismatch
error before any decode work and before any progress event (the outcome is
the mismatch error with an empty event list, for every backend); when the
counts agree the check passes — the result is never the mismatch error. -/
theorem image_slot_precondition :
    (∀ (tok : List Nat → Option Str) (backend : BackendBehavior)
        (prompt : Str) (n : Nat) (p : Bool),
      countImageTags prompt ≠ n →
      infer tok (some prompt) backend n p =
        ([], .error (.slotMismatch (countImageTags prompt) n)))
    ∧ (∀ (tok : List Nat → Option Str) (backend : BackendBehavior)
        (prompt : Str) (n : Nat) (p : Bool),
      countImageTags prompt = n →
      ∀ s i, (infer tok (some prompt) backend n p).2 ≠
        .error (.slotMismatch s i)) := by
  constructor
  · intro tok backend prompt n p hne
    unfold infer
    dsimp only
    rw [if_neg hne]
  · intro tok backend prompt n p heq s i
    unfold infer
    dsimp only
    rw [if_pos heq]
    cases p with
    | false =>
      cases backend.result with
      | none => simp
      | some outcome => simp
    | true =>
      cases hres : backend.result with
      | none => simp [hres]
      | some outcome => simp [hres]

/-- A rendered prompt `"<image><image>Describe these."`. -/
def promptTwoSlots : Str :=
  imageTag ++ imageTag ++
    ['D', 'e', 's', 'c', 'r', 'i', 'b', 'e', ' ', 't', 'h', 'e', 's', 'e', '.']

theorem image_slot_precondition_witness :
    infer tokLen (some promptTwoSlots) ⟨[], some ⟨[], 0, 0, []⟩⟩ 1 true =
      ([], .error (.slotMismatch 2 1)) :=
  image_slot_precondition.1 tokLen ⟨[], some ⟨[], 0, 0, []⟩⟩ promptTwoSlots 1
    true (by decide)

/-- C1 counterexample: a session with a progress callback supplied, whose
backend never invokes the mid-decode callback and returns successfully with
zero generated tokens, delivers no event at all — in particular no event
with `is_final = true` — because `finalize` reduces to `handle(0, [], true)`
which the `count == 0` filter rejects. -/
theorem final_flush_counterexample :
    (infer tokLen (some ['h', 'i']) ⟨[], some ⟨[], 3, 0, []⟩⟩ 0 true).1 = [] := by
  decide

/-- C1 (amended): `finalize(all_tokens)` is exactly
`handle(len(all_tokens), all_tokens, true)`; and for a session where the
backend never invokes the mid-decode callback and returns successfully,
provided the valid-id slice of the generated sequence is non-empty and
detokenizes successfully to non-empty text `s`, the host receives exactly
one event, with `is_final = true` and `delta_text` equal to `s` (the
detokenization of the full generated sequence). -/
theorem final_flush_guarantee :
    (∀ (tok : List Nat → Option Str) (d : ProgressDispatcher) (tokens : List Int),
      d.finalize tok tokens = d.handle tok tokens.length tokens true)
    ∧ (∀ (tok : List Nat → Option Str) (prompt : Str) (backend : BackendBehavior)
        (n : Nat) (outcome : DecodeOutcome) (s : Str),
      countImageTags prompt = n →
      backend.calls = [] →
      backend.result = some outcome →
      tokenSlice outcome.generated_tokens.length outcome.generated_tokens ≠ [] →
      tok (tokenSlice outcome.generated_tokens.length outcome.generated_tokens) =
        some s →
      s ≠ [] →
      infer tok (some prompt) backend n true =
        ([⟨min outcome.generated_tokens.length 4294967295, s, true⟩],
          .ok outcome)) := by
  constructor
  · intro tok d tokens
    rfl
  · intro tok prompt backend n outcome s hslots hcalls hres hs ht hne
    have hlen : outcome.generated_tokens.length ≠ 0 := by
      have := tokenSlice_ne_nil_upto _ _ hs
      omega
    have hacc : Accepted ProgressDispatcher.new
        outcome.generated_tokens.length true := ⟨hlen, Or.inl rfl⟩
    have hhandle := handle_accepted_decode tok ProgressDispatcher.new
      outcome.generated_tokens.length outcome.generated_tokens true s hacc hs ht
    have hadv : ProgressDispatcher.new.tracker.advance s true = (s, ⟨s⟩) := by
      have := advance_of_prefix DeltaTracker.default s true ( List.nil_prefix)
      simpa [ProgressDispatcher.new, DeltaTracker.default] using this
    unfold infer ProgressDispatcher.finalize
    dsimp only
    rw [if_pos hslots, hcalls, hres]
    dsimp only [runHandles]
    rw [hhandle]
    have hie : List.isEmpty s = false := by
      cases s with
      | nil => exact absurd rfl hne
      | cons a t => rfl
    simp [hadv, hie]

theorem final_flush_guarantee_witness :
    infer tokLen (some ['h', 'i']) ⟨[], some ⟨['a'], 1, 1, [1]⟩⟩ 0 true =
      ([⟨min 1 4294967295, ['a'], true⟩], .ok ⟨['a'], 1, 1, [1]⟩) :=
  final_flush_guarantee.2 tokLen ['h', 'i'] ⟨[], some ⟨['a'], 1, 1, [1]⟩⟩ 0
    ⟨['a'], 1, 1, [1]⟩ ['a'] (by decide) rfl rfl (by decide) (by decide)
    (by decide)

/-! Cancellation token (src/crates/core/src/cancellation.rs). -/

/-- The store backing all live `CancellationToken`s: one boolean per
allocated `Arc<AtomicBool>`, plus an allocation counter. A token value is an
index into `flags`; `Clone` copies the index, because the cloned `Arc`
aliases the same `AtomicBool`. -/
structure TokenHeap where
  flags : Nat → Bool
  next : Nat

/-- Model of `CancellationToken::new` (cancellation.rs:14-18): allocate a fresh flag
initialised to `false`. -/
def TokenHeap.newToken (h : TokenHeap) : Nat × TokenHeap :=
  (h.next, ⟨fun i => if i = h.next then false else h.flags i, h.next + 1⟩)

/-- Model of `Clone::clone` on a `CancellationToken` (derived `Clone` on the `Arc`
field): the clone denotes the same shared flag. -/
def cloneToken (t : Nat) : Nat := t

/-- Model of `CancellationToken::cancel` (cancellation.rs:21-23). -/
def TokenHeap.cancel (h : TokenHeap) (t : Nat) : TokenHeap :=
  { h with flags := fun i => if i = t then true else h.flags i }

/-- Model of `CancellationToken::is_cancelled` (cancellation.rs:26-28). -/
def TokenHeap.isCancelled (h : TokenHeap) (t : Nat) : Bool := h.flags t

/-- The operations of the token API that change the store. `is_cancelled`
only reads, so it is not a step. -/
inductive TokenOp
  | newTok
  | cancelTok (t : Nat)

def TokenHeap.step (h : TokenHeap) : TokenOp → TokenHeap
  | .newTok => h.newToken.2
  | .cancelTok t => h.cancel t

def TokenHeap.run (h : TokenHeap) : List TokenOp → TokenHeap
  | [] => h
  | op :: ops => (h.step op).run ops

/-- Allocated tokens stay allocated under any step. -/
lemma step_next_mono (h : TokenHeap) (op : TokenOp) : h.next ≤ (h.step op).next := by
  cases op with
  | newTok => exact Nat.le_succ _
  | cancelTok t => exact Nat.le_refl _

/-- The latch never falls back under any step: an allocated token that reads
cancelled keeps reading cancelled. -/
lemma step_latch (h : TokenHeap) (op : TokenOp) (t : Nat)
    (halloc : t < h.next) (hc : h.isCancelled t = true) :
    (h.step op).isCancelled t = true := by
  cases op with
  | newTok =>
    unfold TokenHeap.step TokenHeap.newToken TokenHeap.isCancelled
    dsimp only
    rw [if_neg (by omega)]
    exact hc
  | cancelTok u =>
    unfold TokenHeap.step TokenHeap.cancel TokenHeap.isCancelled
    dsimp only
    by_cases hu : t = u
    · rw [if_pos hu]
    · rw [if_neg hu]
      exact hc

lemma run_latch (h : TokenHeap) (ops : List TokenOp) (t : Nat)
    (halloc : t < h.next) (hc : h.isCancelled t = true) :
    (h.run ops).isCancelled t = true := by
  induction ops generalizing h with
  | nil => exact hc
  | cons op rest ih =>
    exact ih (h.step op) (Nat.lt_of_lt_of_le halloc (step_next_mono h op))
      (step_latch h op t halloc hc)

/-- C4: a fresh token reads not-cancelled; after `cancel()` the token — and
any clone of it, since clones alias the same flag — reads cancelled, and it
keeps reading cancelled after any further sequence of token operations (no
operation transitions the flag from `true` back to `false`); and `cancel` is
idempotent. -/
theorem cancellation_token_latch :
    (∀ h : TokenHeap, h.newToken.2.isCancelled h.newToken.1 = false)
    ∧ (∀ (h : TokenHeap) (t : Nat), (h.cancel t).isCancelled t = true)
    ∧ (∀ (h : TokenHeap) (t : Nat), (h.cancel t).isCancelled (cloneToken t) = true)
    ∧ (∀ (h : TokenHeap) (ops : List TokenOp) (t : Nat),
      t < h.next → h.isCancelled t = true → (h.run ops).isCancelled t = true)
    ∧ (∀ (h : TokenHeap) (t : Nat), (h.cancel t).cancel t = h.cancel t) := by
  refine ⟨?_, ?_, ?_, run_latch, ?_⟩
  · intro h
    unfold TokenHeap.newToken TokenHeap.isCancelled
    simp
  · intro h t
    unfold TokenHeap.cancel TokenHeap.isCancelled
    simp
  · intro h t
    unfold TokenHeap.cancel TokenHeap.isCancelled cloneToken
    simp
  · intro h t
    unfold TokenHeap.cancel
    congr 1
    funext i
    by_cases hi : i = t
    · simp [hi]
    · simp [hi]

theorem cancellation_token_latch_witness :
    TokenHeap.isCancelled
      (TokenHeap.run (TokenHeap.cancel ⟨fun _ => false, 1⟩ 0)
        [TokenOp.newTok, TokenOp.newTok, TokenOp.cancelTok 2]) 0 = true :=
  cancellation_token_latch.2.2.2.1 (TokenHeap.cancel ⟨fun _ => false, 1⟩ 0)
    [TokenOp.newTok, TokenOp.newTok, TokenOp.cancelTok 2] 0 (by decide)
    (by simp [TokenHeap.cancel, TokenHeap.isCancelled])

/-! Inference configuration (src/crates/android/src/lib.rs).

The `f64` fields (`temperature`, `top_p`, `repetition_penalty`) only ever
hold values assigned verbatim from the host and undergo no arithmetic; the
single operation on them is the comparison `top_p < 1.0` (lib.rs:241). They
are modelled as rationals: every finite `f64` is exactly a rational, the
literals `0.0` and `1.0` are exact, and `<` against `1.0` agrees with the
rational order on finite values. The `repetition_penalty as f32` narrowing
(lib.rs:243) is modelled as the identity, which is exact for the values the
claims mention. -/

/-- Record `VisionSettings` as populated at lib.rs:232-236. -/
structure VisionSettings where
  base_size : Nat
  image_size : Nat
  crop_mode : Bool
deriving Repr, DecidableEq

/-- Record `DecodeParameters` as populated at lib.rs:237-247. -/
structure DecodeParameters where
  max_new_tokens : Nat
  do_sample : Bool
  temperature : ℚ
  top_p : Option ℚ
  top_k : Option Nat
  repetition_penalty : ℚ
  no_repeat_ngram_size : Option Nat
  seed : Option Nat
  use_cache : Bool
deriving Repr, DecidableEq

/-- Record `EngineSettings` (engine.rs:46-52). -/
structure EngineSettings where
  template : Str
  system_prompt : Option Str
  vision : VisionSettings
  decode : DecodeParameters
deriving Repr, DecidableEq

/-- Record `AndroidInferenceOptions` (lib.rs:40-56). -/
structure AndroidInferenceOptions where
  base_size : Nat
  image_size : Nat
  crop_mode : Bool
  max_new_tokens : Nat
  use_cache : Bool
  do_sample : Bool
  temperature : ℚ
  top_p : ℚ
  top_k : Option Nat
  repetition_penalty : ℚ
  no_repeat_ngram_size : Option Nat
  seed : Option Nat
  template : Str
  system_prompt : Option Str
deriving Repr, DecidableEq

/-- Model of `AndroidInferenceOptions::default` (lib.rs:58-77). -/
def AndroidInferenceOptions.default : AndroidInferenceOptions where
  base_size := 1024
  image_size := 640
  crop_mode := true
  max_new_tokens := 512
  use_cache := true
  do_sample := false
  temperature := 0
  top_p := 1
  top_k := none
  repetition_penalty := 1
  no_repeat_ngram_size := some 20
  seed := none
  template := ['p', 'l', 'a', 'i', 'n']
  system_prompt := none

/-- Model of `str::trim` (lib.rs:227): strip leading and trailing whitespace. -/
def trimStr (s : Str) : Str :=
  ((s.dropWhile Char.isWhitespace).reverse.dropWhile Char.isWhitespace).reverse

/-- The inference half of `TryFrom<AndroidRunConfig> for EngineArgs`
(lib.rs:205-257); the model-path half only repackages strings into
`PathBuf`s and is omitted. The conversion itself is infallible. -/
def engineSettingsOfInference (inference : AndroidInferenceOptions) :
    EngineSettings :=
  let template_value :=
    if inference.template.isEmpty then (['p', 'l', 'a', 'i', 'n'] : Str)
    else inference.template
  let system_prompt_value := inference.system_prompt.bind fun value =>
    if trimStr value = [] then none else some (trimStr value)
  { template := template_value
    system_prompt := system_prompt_value
    vision :=
      { base_size := inference.base_size
        image_size := inference.image_size
        crop_mode := inference.crop_mode }
    decode :=
      { max_new_tokens := inference.max_new_tokens
        do_sample := inference.do_sample
        temperature := inference.temperature
        top_p := if inference.top_p < 1 then some inference.top_p else none
        top_k := inference.top_k
        repetition_penalty := inference.repetition_penalty
        no_repeat_ngram_size := inference.no_repeat_ngram_size
        seed := inference.seed
        use_cache := inference.use_cache } }

/-- C9: the defaulted configuration is base size 1024, image size 640, crop
mode on, max new tokens 512, cache on, sampling off, temperature 0.0,
top-p 1.0, repetition penalty 1.0, no-repeat n-gram size 20, template
"plain"; and for every configuration top-p is forwarded to the backend iff
it is strictly below 1.0, in which case it is forwarded unchanged. -/
theorem default_configuration :
    (AndroidInferenceOptions.default.base_size = 1024
      ∧ AndroidInferenceOptions.default.image_size = 640
      ∧ AndroidInferenceOptions.default.crop_mode = true
      ∧ AndroidInferenceOptions.default.max_new_tokens = 512
      ∧ AndroidInferenceOptions.default.use_cache = true
      ∧ AndroidInferenceOptions.default.do_sample = false
      ∧ AndroidInferenceOptions.default.temperature = 0
      ∧ AndroidInferenceOptions.default.top_p = 1
      ∧ AndroidInferenceOptions.default.repetition_penalty = 1
      ∧ AndroidInferenceOptions.default.no_repeat_ngram_size = some 20
      ∧ AndroidInferenceOptions.default.template = ['p', 'l', 'a', 'i', 'n'])
    ∧ (∀ opts : AndroidInferenceOptions,
      (((engineSettingsOfInference opts).decode.top_p).isSome ↔ opts.top_p < 1)
      ∧ ∀ q, (engineSettingsOfInference opts).decode.top_p = some q →
          q = opts.top_p) := by
  refine ⟨⟨rfl, rfl, rfl, rfl, rfl, rfl, rfl, rfl, rfl, rfl, rfl⟩, ?_⟩
  intro opts
  unfold engineSettingsOfInference
  dsimp only
  by_cases hp : opts.top_p < 1
  · rw [if_pos hp]
    exact ⟨by simpa using hp, fun q hq => (Option.some.inj hq).symm⟩
  · rw [if_neg hp]
    exact ⟨by simpa using hp, fun q hq => absurd hq (by simp)⟩

theorem default_configuration_witness :
    (((engineSettingsOfInference AndroidInferenceOptions.default).decode.top_p).isSome
      ↔ (1 : ℚ) < 1)
    ∧ (0 : ℚ) =
      ({ AndroidInferenceOptions.default with top_p := 0 } :
        AndroidInferenceOptions).top_p :=
  ⟨(default_configuration.2 AndroidInferenceOptions.default).1,
   (default_configuration.2
      { AndroidInferenceOptions.default with top_p := 0 }).2 0 (by decide)⟩

/-! Image decoding (src/crates/android/src/lib.rs:182-191). -/

/-- Record `AndroidImageInput` (lib.rs:85-89): raw bytes plus a declared MIME
type. Bytes are modelled as `Nat` (the `< 256` bound plays no role here). -/
structure AndroidImageInput where
  data : List Nat
  mime_type : Option Str

/-- Model of `decode_images` (lib.rs:182-191): decode each buffer with
`image::load_from_memory(&input.data)` (external collaborator `load`,
`none` modelling a decode failure), stopping at the first failure, whose
`enumerate` index is reported in the error. Only `input.data` is ever read;
the declared `mime_type` is not consulted. -/
def decode_images {Img : Type} (load : List Nat → Option Img) :
    List AndroidImageInput → Nat → Except Nat (List Img)
  | [], _ => .ok []
  | input :: rest, idx =>
    match load input.data with
    | none => .error idx
    | some img =>
      match decode_images load rest (idx + 1) with
      | .error e => .error e
      | .ok imgs => .ok (img :: imgs)

/-- Model of `android_run_ocr` (lib.rs:156-180) as far as image handling is
concerned: images are decoded first, and everything that follows (engine
construction and `infer`) consumes only the decoded images, abstracted as
the continuation `rest`. -/
def android_run_ocr {Img R : Type} (load : List Nat → Option Img)
    (rest : List Img → R) (onErr : Nat → R)
    (inputs : List AndroidImageInput) : R :=
  match decode_images load inputs 0 with
  | .error idx => onErr idx
  | .ok imgs => rest imgs

lemma decode_images_data_only {Img : Type} (load : List Nat → Option Img)
    (inputs₁ inputs₂ : List AndroidImageInput) (idx : Nat)
    (h : inputs₁.map AndroidImageInput.data = inputs₂.map AndroidImageInput.data) :
    decode_images load inputs₁ idx = decode_images load inputs₂ idx := by
  induction inputs₁ generalizing inputs₂ idx with
  | nil =>
    cases inputs₂ with
    | nil => rfl
    | cons b t => simp at h
  | cons a t ih =>
    cases inputs₂ with
    | nil => simp at h
    | cons b t' =>
      simp only [List.map_cons, List.cons.injEq] at h
      unfold decode_images
      rw [h.1, ih t' (idx + 1) h.2]

/-- C10: for any two image-input lists whose raw byte buffers agree
pairwise while the declared `mime_type` fields differ arbitrarily,
`decode_images` produces the same result, and hence the image-dependent
outcome of `android_run_ocr` is the same: the declared MIME type has no
effect. -/
theorem mime_type_has_no_effect :
    (∀ (Img : Type) (load : List Nat → Option Img)
        (inputs₁ inputs₂ : List AndroidImageInput) (idx : Nat),
      inputs₁.map AndroidImageInput.data = inputs₂.map AndroidImageInput.data →
      decode_images load inputs₁ idx = decode_images load inputs₂ idx)
    ∧ (∀ (Img R : Type) (load : List Nat → Option Img) (rest : List Img → R)
        (onErr : Nat → R) (inputs₁ inputs₂ : List AndroidImageInput),
      inputs₁.map AndroidImageInput.data = inputs₂.map AndroidImageInput.data →
      android_run_ocr load rest onErr inputs₁ =
        android_run_ocr load rest onErr inputs₂) := by
  refine ⟨fun Img load i₁ i₂ idx h => decode_images_data_only load i₁ i₂ idx h, ?_⟩
  intro Img R load rest onErr i₁ i₂ h
  unfold android_run_ocr
  rw [decode_images_data_only load i₁ i₂ 0 h]

theorem mime_type_has_no_effect_witness :
    decode_images (fun l => some l.length)
      [⟨[1, 2], some ['p', 'n', 'g']⟩] 0 =
    decode_images (fun l => some l.length)
      [⟨[1, 2], some ['j', 'p', 'g']⟩] 0 :=
  mime_type_has_no_effect.1 Nat (fun l => some l.length)
    [⟨[1, 2], some ['p', 'n', 'g']⟩] [⟨[1, 2], some ['j', 'p', 'g']⟩] 0 rfl

end DeepseekOcr
